import Mathlib

/-!
Verification of the `tidal_variance` repository's extrema-detection and
aggregation pipeline, shallowly embedded in Lean.

An input series is a list of observations, each carrying a civil timestamp
`t`, a rational tide height `v`, and a kind string `type` (`"H"` or `"L"`).
Tide heights are embedded as rationals; the claims under study only compare
and average them, so exact arithmetic is a faithful model of the float
computations on the decimal inputs involved.

Pandas conventions modelled here:
* boolean-mask row selection keeps rows in order where the mask is true;
* `shift(1)` / `shift(-1)` move a column down/up one slot, filling the
  vacated slot with NaN, and any `<` comparison against NaN is `False`
  (modelled with `Option` and a comparison that is `false` on `none`);
* `sort_values("t")` sorts rows by the timestamp key (modelled with a
  stable insertion sort);
* `groupby` forms one group per distinct key, each group listing its rows
  in input order (group *order* is irrelevant to every property proved
  here, so groups are kept in first-occurrence order of their keys).
-/

/-- A civil timestamp (station-local), split into the components the code
extracts via `dt.year`, `dt.month`, `dt.hour`. -/
structure Tm where
  year : Nat
  month : Nat
  day : Nat
  hour : Nat
  minute : Nat
deriving DecidableEq, Inhabited

/-- Mixed-radix encoding of a timestamp, used as the `sort_values("t")`
sort key; lexicographic on the components for in-range civil values. -/
def Tm.key (t : Tm) : Nat :=
  (((t.year * 13 + t.month) * 32 + t.day) * 24 + t.hour) * 60 + t.minute

/-- One row of the input series: columns `t`, `v`, `type`. -/
structure Obs where
  t : Tm
  v : ℚ
  kind : String
deriving DecidableEq, Inhabited

instance : DecidableRel (fun (a b : Obs) => a.t.key ≤ b.t.key) :=
  fun _ _ => Nat.decLe _ _

/-- `df.sort_values("t")`: stable sort by timestamp. -/
def sortByT (df : List Obs) : List Obs :=
  List.insertionSort (fun a b => a.t.key ≤ b.t.key) df

def kindLow : String := "L"

def kindHigh : String := "H"

/-- `src/tidal_variance/analysis.py` line 13:
`df[df["type"] == "L"].sort_values("t").reset_index(drop=True)` —
the same-kind candidate sequence for low tides. -/
def lowCandidates (df : List Obs) : List Obs :=
  sortByT (df.filter (fun r => r.kind == kindLow))

/-- Pandas `a < b` on float columns, with NaN (here `none`) compare false. -/
def ltO : Option ℚ → Option ℚ → Bool
  | some x, some y => decide (x < y)
  | _, _ => false

/-- Pandas `col.shift(1)`: previous row's value, NaN in row 0. -/
def shiftDown (xs : List ℚ) : List (Option ℚ) :=
  (none :: xs.map some).take xs.length

/-- Pandas `col.shift(-1)`: next row's value, NaN in the last row. -/
def shiftUp (xs : List ℚ) : List (Option ℚ) :=
  (xs.map some).drop 1 ++ [none]

/-- `(padded["v"] < padded["v"].shift(1)) & (padded["v"] < padded["v"].shift(-1))`
(analysis.py line 21), as a boolean column over the padded values. -/
def seriesMask (xs : List ℚ) : List Bool :=
  List.zipWith (fun a b => a && b)
    (List.zipWith (fun p l => ltO (some p) l) xs (shiftDown xs))
    (List.zipWith (fun p r => ltO (some p) r) xs (shiftUp xs))

/-- Boolean-mask row selection `df[mask]`. -/
def boolSelect (xs : List α) (mask : List Bool) : List α :=
  (xs.zip mask).filterMap fun e => bif e.2 then some e.1 else none

/-- `pd.concat([low_tides.iloc[[1]], low_tides, low_tides.iloc[[-2]]])`
(analysis.py lines 17-20): the padded candidate sequence. -/
def paddedOf (c : List Obs) : List Obs :=
  [c.getD 1 default] ++ c ++ [c.getD (c.length - 2) default]

/-- `src/tidal_variance/analysis.py` `identify_low_tides` (lines 11-23):
filter to kind `"L"`, sort by time; return unchanged if at most one
candidate; otherwise pad with the second and second-to-last candidate,
compare each padded slot against its shifted neighbours, slice the mask
back to the original rows (`iloc[1:-1]`) and select. -/
def identify_low_tides (df : List Obs) : List Obs :=
  let c := lowCandidates df
  if c.length ≤ 1 then c
  else
    let pv := (paddedOf c).map (·.v)
    boolSelect c (((seriesMask pv).drop 1).dropLast)

/-- `monthly_tidal_variance.py` `identify_low_tides` (lines 97-118):
filter to kind not `"H"`, sort by time, keep index `i` of
`range(1, len(df) - 1)` when row `i` is strictly below rows `i-1` and
`i+1`; the first and last candidates are never classified. -/
def script_identify_low_tides (df : List Obs) : List Obs :=
  let d := sortByT (df.filter (fun r => r.kind != kindHigh))
  (List.range' 1 (d.length - 2)).filterMap fun i =>
    if (d.getD i default).v < (d.getD (i - 1) default).v ∧
        (d.getD i default).v < (d.getD (i + 1) default).v
    then some (d.getD i default) else none

/-- The claim's padded-neighbour rule, stated by direct indexing: the
original candidate at position `i` sits at padded position `i + 1` and is
kept iff its value is strictly below both padded neighbours. -/
def specLowTides (c : List Obs) : List Obs :=
  (List.range c.length).filterMap fun i =>
    if ((paddedOf c).getD (i + 1) default).v < ((paddedOf c).getD i default).v ∧
        ((paddedOf c).getD (i + 1) default).v < ((paddedOf c).getD (i + 2) default).v
    then some (c.getD i default) else none

/-- A two-candidate low-tide series on which the two detectors disagree. -/
def dfTwoLows : List Obs :=
  [⟨⟨2020, 1, 1, 0, 0⟩, 0, "L"⟩, ⟨⟨2020, 1, 1, 6, 0⟩, 1, "L"⟩]

/-- Arithmetic mean of a rational column, as pandas `mean()`. -/
def mean (xs : List ℚ) : ℚ := xs.sum / xs.length

/-- `config.py` line 8. -/
def DAY_START_HOUR : Nat := 10

/-- `config.py` line 9. -/
def DAY_END_HOUR : Nat := 16

/-- `config.py` line 10 (`0.1`), in normalised form so that kernel
evaluation can decide comparisons against it. -/
def TIDEPOOL_TIDE : ℚ := mkRat 1 10

/-- Python's `datetime.strftime` renders `%B` as the current LC_TIME
locale's full month name; a locale is modelled by its month-name table. -/
def strftimeFullMonth (loc : Nat → String) (m : Nat) : String := loc m

/-- The month-name lambda
`lambda month: datetime(1900, month, 1).strftime("%B")` shared by every
aggregator in `analysis.py`: the name is produced from the month number
alone, through the ambient locale's table. -/
def monthNameOf (loc : Nat → String) (m : Nat) : String := strftimeFullMonth loc m

/-- The C / POSIX locale month table (English full names). -/
def cLocaleMonth : Nat → String := fun m =>
  match m with
  | 1 => "January" | 2 => "February" | 3 => "March" | 4 => "April"
  | 5 => "May" | 6 => "June" | 7 => "July" | 8 => "August"
  | 9 => "September" | 10 => "October" | 11 => "November" | 12 => "December"
  | _ => ""

/-- A different LC_TIME month table (German), used to exhibit the locale
dependence of `%B`. -/
def deLocaleMonth : Nat → String := fun m =>
  match m with
  | 1 => "Januar" | 2 => "Februar" | 3 => "Maerz" | 4 => "April"
  | 5 => "Mai" | 6 => "Juni" | 7 => "Juli" | 8 => "August"
  | 9 => "September" | 10 => "Oktober" | 11 => "November" | 12 => "Dezember"
  | _ => ""

/-- Distinct group keys of a column, as formed by pandas `groupby` (one
group per distinct key; kept in first-occurrence order, see header note). -/
def groupKeys {κ : Type} [DecidableEq κ] (xs : List κ) : List κ := xs.dedup

/-- A row of the month-only mean table: columns `month`, `v`, `month_name`. -/
structure MonthRow where
  month : Nat
  v : ℚ
  month_name : String
deriving DecidableEq

/-- `analysis.py` `analyze_monthly_average` (lines 26-34): group by the
month component of `t`, mean of `v` per group, attach the month name
produced by the ambient locale `loc`. -/
def analyze_monthly_average (loc : Nat → String) (df : List Obs) : List MonthRow :=
  (groupKeys (df.map (fun r => r.t.month))).map fun m =>
    { month := m,
      v := mean ((df.filter (fun r => decide (r.t.month = m))).map (fun r => r.v)),
      month_name := monthNameOf loc m }

/-- The `(year, month)` group key (`dt.year`, `dt.month`). -/
def ymKey (r : Obs) : Nat × Nat := (r.t.year, r.t.month)

/-- The inclusive daytime filter
`(df["t"].dt.hour >= DAY_START_HOUR) & (df["t"].dt.hour <= DAY_END_HOUR)`
(analysis.py lines 57 and 73). -/
def aggHourFilter (df : List Obs) : List Obs :=
  df.filter fun r =>
    decide (DAY_START_HOUR ≤ r.t.hour) && decide (r.t.hour ≤ DAY_END_HOUR)

/-- The half-open daytime filter
`(df_below["hour"] >= DAY_START_HOUR) & (df_below["hour"] < DAY_END_HOUR)`
(analysis.py line 100). -/
def counterHourFilter (df : List Obs) : List Obs :=
  df.filter fun r =>
    decide (DAY_START_HOUR ≤ r.t.hour) && decide (r.t.hour < DAY_END_HOUR)

/-- The threshold filter `df_local[df_local["v"] < TIDEPOOL_TIDE]`
(analysis.py line 99). -/
def belowTidepoolFilter (df : List Obs) : List Obs :=
  df.filter fun r => decide (r.v < TIDEPOOL_TIDE)

/-- A row of the year-by-month aggregate: columns `year`, `month`,
`average_lowest_tide`, `month_name`. -/
structure YearMonthRow where
  year : Nat
  month : Nat
  average_lowest_tide : ℚ
  month_name : String
deriving DecidableEq

/-- `analysis.py` `calculate_monthly_avg_lowest_day_tide_by_year` (lines
68-84): inclusive daytime filter, group by `(year, month)`, mean of `v`
per group; its CSV export side effect is modelled by `export_to_csv`. -/
def calculate_monthly_avg_lowest_day_tide_by_year (loc : Nat → String)
    (df : List Obs) : List YearMonthRow :=
  (groupKeys ((aggHourFilter df).map ymKey)).map fun k =>
    { year := k.1, month := k.2,
      average_lowest_tide :=
        mean (((aggHourFilter df).filter (fun r => decide (ymKey r = k))).map
          (fun r => r.v)),
      month_name := monthNameOf loc k.2 }

/-- `groupby(["year", "month"]).size()` (analysis.py lines 102-104): one
row per `(year, month)` group holding the group's row count. -/
def ymCounts (df : List Obs) : List ((Nat × Nat) × Nat) :=
  (groupKeys (df.map ymKey)).map fun k =>
    (k, (df.filter (fun r => decide (ymKey r = k))).length)

/-- `monthly_counts_daytime.groupby("month")[...].mean()` (analysis.py
lines 106-108): mean of the per-`(year, month)` counts, per month. -/
def monthMeanCounts (counts : List ((Nat × Nat) × Nat)) : List (Nat × ℚ) :=
  (groupKeys (counts.map (fun e => e.1.2))).map fun m =>
    (m, mean ((counts.filter (fun e => decide (e.1.2 = m))).map
      (fun e => (e.2 : ℚ))))

/-- A row of the Threshold Crossing Counter's result table. -/
structure CountRow where
  month : Nat
  average_count_below_tidepool_tide_daytime : ℚ
  month_name : String
deriving DecidableEq

/-- The qualifying observations of the Threshold Crossing Counter: below
the threshold and inside the half-open daytime window (analysis.py lines
99-100). -/
def qualRows (df : List Obs) : List Obs :=
  counterHourFilter (belowTidepoolFilter df)

/-- `analysis.py` `calculate_monthly_avg_count_below_tidepool_tide_daytime`
(lines 87-127): count qualifying rows per `(year, month)`, average the
counts per month, left-merge against the fixed month table 1-12 with
`fillna(0)`, attach month names. CSV export is modelled by
`export_to_csv`. -/
def calculate_monthly_avg_count_below_tidepool_tide_daytime
    (loc : Nat → String) (df : List Obs) : List CountRow :=
  (List.range' 1 12).map fun m =>
    { month := m,
      average_count_below_tidepool_tide_daytime :=
        ((monthMeanCounts (ymCounts (qualRows df))).lookup m).getD 0,
      month_name := monthNameOf loc m }

/-- Number of qualifying observations falling in calendar month `m`. -/
def qualCountInMonth (df : List Obs) (m : Nat) : Nat :=
  ((qualRows df).filter (fun r => decide (r.t.month = m))).length

/-- Number of distinct years having at least one qualifying observation
in calendar month `m`. -/
def qualYearsInMonth (df : List Obs) (m : Nat) : Nat :=
  ((((qualRows df).filter (fun r => decide (r.t.month = m))).map
    (fun r => r.t.year)).dedup).length

/-- A one-row series in January, used to exhibit locale dependence. -/
def dfJan : List Obs := [⟨⟨2020, 1, 1, 12, 0⟩, 1, "L"⟩]

/-- An observation whose hour is exactly `DAY_END_HOUR`. -/
def obsAt16 : Obs := ⟨⟨2020, 1, 1, 16, 0⟩, 0, "L"⟩

/-- A filesystem path, split as `pathlib` does into parent directory,
stem, and suffix. -/
structure FPath where
  dir : String
  stem : String
  ext : String
deriving DecidableEq

/-- `output_path.with_name(f"{output_path.stem}.bak_{timestamp}{output_path.suffix}")`
(io.py lines 109-111): the rotation target for an existing output file. -/
def rotatedName (p : FPath) (timestamp : String) : FPath :=
  { p with stem := p.stem ++ ".bak_" ++ timestamp }

/-- A filesystem: paths bound to file contents. -/
abbrev FS (α : Type) : Type := List (FPath × α)

def fsGet {α : Type} : FS α → FPath → Option α
  | [], _ => none
  | (q, t) :: rest, p => if q = p then some t else fsGet rest p

/-- Write (create or overwrite) the file at `p`. -/
def fsWrite {α : Type} (fs : FS α) (p : FPath) (t : α) : FS α :=
  (p, t) :: fs.filter (fun e => decide (e.1 ≠ p))

/-- POSIX `Path.rename(src → dst)`: the content moves and an existing
`dst` is replaced. -/
def fsRename {α : Type} (fs : FS α) (src dst : FPath) : FS α :=
  match fsGet fs src with
  | none => fs
  | some c => fsWrite (fs.filter (fun e => decide (e.1 ≠ src))) dst c

/-- `src/tidal_variance/io.py` `export_to_csv` (lines 102-119): if a file
already exists at the target path, rename it to the timestamped backup
path, then write the new table at the target. -/
def export_to_csv {α : Type} (fs : FS α) (tbl : α) (p : FPath)
    (timestamp : String) : FS α :=
  match fsGet fs p with
  | some _ => fsWrite (fsRename fs p (rotatedName p timestamp)) p tbl
  | none => fsWrite fs p tbl

/-- `monthly_tidal_variance.py` `export_to_csv` (lines 455-464):
`df.to_csv(filename)` with no existence check — a plain overwrite. -/
def script_export_to_csv {α : Type} (fs : FS α) (tbl : α) (p : FPath) : FS α :=
  fsWrite fs p tbl

/-- A concrete output path. -/
def outCsv : FPath := { dir := "out", stem := "monthly", ext := ".csv" }

/-- A concrete rotation timestamp (`%Y%m%d_%H%M%S`). -/
def backupStamp : String := "20240101_000000"

/-- A dynamically-typed cell of a DataFrame column. -/
inductive Val
  | nat (n : Nat)
  | rat (q : ℚ)
  | str (s : String)
  | tm (t : Tm)
deriving DecidableEq

/-- A DataFrame row: an ordered association of column names to cells. -/
abbrev DRow : Type := List (String × Val)

/-- A DataFrame, untyped: a list of rows. Used to make the heap effect of
column assignment on a caller's frame observable. -/
abbrev DFrame : Type := List DRow

def getField : DRow → String → Option Val
  | [], _ => none
  | (k, v) :: rest, name => if k = name then some v else getField rest name

/-- Pandas column assignment on one row: replace the column if present,
else append it. -/
def setField (row : DRow) (name : String) (v : Val) : DRow :=
  if row.any (fun e => decide (e.1 = name)) then
    row.map (fun e => if e.1 = name then (name, v) else e)
  else row ++ [(name, v)]

/-- Pandas column assignment `frame[name] = vals`. -/
def setCol (df : DFrame) (name : String) (vals : List Val) : DFrame :=
  List.zipWith (fun row v => setField row name v) df vals

def colT : String := "t"

def colV : String := "v"

def colType : String := "type"

def colMonth : String := "month"

def colYear : String := "year"

def colHour : String := "hour"

/-- The `t` cell of a row (`pd.to_datetime` on an already-typed column is
the identity). -/
def rowT (r : DRow) : Tm :=
  match getField r colT with
  | some (Val.tm t) => t
  | _ => default

def rowV (r : DRow) : ℚ :=
  match getField r colV with
  | some (Val.rat q) => q
  | _ => 0

def rowNat (r : DRow) (name : String) : Nat :=
  match getField r name with
  | some (Val.nat n) => n
  | _ => 0

/-- The typed view of an untyped row. -/
def toObs (r : DRow) : Obs :=
  { t := rowT r, v := rowV r,
    kind :=
      match getField r colType with
      | some (Val.str s) => s
      | _ => "" }

/-- The tail of `analyze_monthly_average` after the column assignment:
`groupby("month")["v"].mean()` plus month names, read off the frame's
`month` column. -/
def monthTableOfFrame (loc : Nat → String) (d : DFrame) : List MonthRow :=
  (groupKeys (d.map (fun r => rowNat r colMonth))).map fun m =>
    { month := m,
      v := mean ((d.filter (fun r => decide (rowNat r colMonth = m))).map rowV),
      month_name := monthNameOf loc m }

/-- `analysis.py` `analyze_monthly_average` (lines 26-34) with its heap
effect made explicit: `df_local = low_tides_df.copy()` directs the column
assignment at a fresh copy, so the caller's frame comes back unchanged
next to the result table. -/
def analyze_monthly_average_state (loc : Nat → String) (df : DFrame) :
    DFrame × List MonthRow :=
  let dfLocal := setCol df colMonth (df.map (fun r => Val.nat (rowT r).month))
  (df, monthTableOfFrame loc dfLocal)

/-- `monthly_tidal_variance.py` `analyze_monthly_average` (lines 142-158):
no copy — `low_tides_df["month"] = ...` assigns the new column on the
caller's own frame. -/
def script_analyze_monthly_average_state (loc : Nat → String) (df : DFrame) :
    DFrame × List MonthRow :=
  let df1 := setCol df colMonth (df.map (fun r => Val.nat (rowT r).month))
  (df1, monthTableOfFrame loc df1)

/-- The column assignments of the threshold counter: re-assign `t` and add
`month`, `year`, `hour` (analysis.py lines 93-97 on a copy; script lines
390-395 on the caller's frame). -/
def withCalendarCols (df : DFrame) : DFrame :=
  let d1 := setCol df colT (df.map (fun r => Val.tm (rowT r)))
  let d2 := setCol d1 colMonth (d1.map (fun r => Val.nat (rowT r).month))
  let d3 := setCol d2 colYear (d2.map (fun r => Val.nat (rowT r).year))
  setCol d3 colHour (d3.map (fun r => Val.nat (rowT r).hour))

/-- `analysis.py` `calculate_monthly_avg_count_below_tidepool_tide_daytime`
with its heap effect explicit: the assignments hit `df.copy()`, the
caller's frame returns unchanged next to the table. -/
def calculate_count_below_state (loc : Nat → String) (df : DFrame) :
    DFrame × List CountRow :=
  let dfLocal := withCalendarCols df
  (df, calculate_monthly_avg_count_below_tidepool_tide_daytime loc
    (dfLocal.map toObs))

/-- `monthly_tidal_variance.py`
`calculate_monthly_avg_count_below_tidepool_tide_daytime` (lines 378-428):
the same assignments land on the caller's own frame. -/
def script_calculate_count_below_state (loc : Nat → String) (df : DFrame) :
    DFrame × List CountRow :=
  let df1 := withCalendarCols df
  (df1, calculate_monthly_avg_count_below_tidepool_tide_daytime loc
    (df1.map toObs))

/-- A concrete one-row frame with `t` and `v` columns only. -/
def dfFrameJan : DFrame :=
  [[(colT, Val.tm ⟨2020, 1, 1, 12, 0⟩), (colV, Val.rat 1)]]

/-- The module-level names bound by `src/tidal_variance/config.py`. -/
def configModuleNames : List String :=
  ["Path", "NOAA_API_URL", "STATION_ID", "DAY_START_HOUR", "DAY_END_HOUR",
    "TIDEPOOL_TIDE", "PROJECT_ROOT", "DATA_RAW_DIR", "DATA_PROCESSED_DIR",
    "OUT_PLOTS_DIR"]

/-- The names `cli.py` lines 17-24 import from `.config`. -/
def cliConfigImports : List String :=
  ["DATA_PROCESSED_DIR", "DATA_RAW_DIR", "DEFAULT_END_YEAR",
    "DEFAULT_START_YEAR", "OUT_PLOTS_DIR", "STATION_ID"]

/-- The names `__init__.py` lines 12-23 import from `.config`. -/
def initConfigImports : List String :=
  ["DATA_PROCESSED_DIR", "DATA_RAW_DIR", "DEFAULT_END_YEAR",
    "DEFAULT_START_YEAR", "DAY_END_HOUR", "DAY_START_HOUR", "NOAA_API_URL",
    "OUT_PLOTS_DIR", "STATION_ID", "TIDEPOOL_TIDE"]

/-- The names `analysis.py` line 7 imports from `.config`. -/
def analysisConfigImports : List String :=
  ["DATA_PROCESSED_DIR", "DAY_END_HOUR", "DAY_START_HOUR", "TIDEPOOL_TIDE"]

/-- The names `io.py` line 9 imports from `.config`. -/
def ioConfigImports : List String :=
  ["DATA_PROCESSED_DIR", "DATA_RAW_DIR", "NOAA_API_URL", "OUT_PLOTS_DIR"]

/-- The names `plotting.py` line 5 imports from `.config`. -/
def plottingConfigImports : List String := ["OUT_PLOTS_DIR", "TIDEPOOL_TIDE"]

/-- A Python `from .config import a, b, ...` statement succeeds iff every
requested name is bound in the config module. -/
def fromConfigImportOk (requested : List String) : Bool :=
  requested.all (fun n => configModuleNames.contains n)

/-- Importing `tidal_variance.cli` runs `cli.py`, which first imports
`.analysis` (hence `.io`, hence nothing further from config beyond its own
list), then `.config`, `.io`, and `.plotting`; it succeeds iff every
`from .config import` on that path resolves. -/
def importCliOk : Bool :=
  fromConfigImportOk analysisConfigImports && fromConfigImportOk ioConfigImports
    && fromConfigImportOk cliConfigImports
    && fromConfigImportOk plottingConfigImports

/-- Importing the `tidal_variance` package runs `__init__.py`: `.analysis`,
then `.cli`, then its own `from .config import` list. -/
def importPackageOk : Bool :=
  fromConfigImportOk analysisConfigImports && importCliOk
    && fromConfigImportOk initConfigImports

/-- A series with three qualifying January observations in 2020 and one
qualifying February observation in 2021: 2021 has no qualifying January
row, so it must not enter January's denominator. -/
def dfC10 : List Obs :=
  [⟨⟨2020, 1, 5, 11, 0⟩, 0, "L"⟩,
    ⟨⟨2020, 1, 6, 12, 0⟩, 0, "L"⟩,
    ⟨⟨2020, 1, 7, 13, 0⟩, 0, "L"⟩,
    ⟨⟨2021, 2, 5, 11, 0⟩, 0, "L"⟩]

/-- C5: a candidate sequence of length 0 or 1 is returned unchanged by the
Extrema Detector (`analysis.py` `identify_low_tides`), which is total. -/
theorem identify_low_tides_short (df : List Obs)
    (h : (lowCandidates df).length ≤ 1) :
    identify_low_tides df = lowCandidates df := by
  simp [identify_low_tides, h]

theorem identify_low_tides_short_spot :
    (lowCandidates [(⟨⟨2021, 3, 2, 4, 5⟩, 1, "L"⟩ : Obs)]).length ≤ 1 ∧
      identify_low_tides [(⟨⟨2021, 3, 2, 4, 5⟩, 1, "L"⟩ : Obs)] =
        lowCandidates [(⟨⟨2021, 3, 2, 4, 5⟩, 1, "L"⟩ : Obs)] :=
  ⟨by decide, identify_low_tides_short _ (by decide)⟩

/-- C6: the boundary-padding rule of `analysis.py` and the
endpoint-dropping rule of `monthly_tidal_variance.py` are not equivalent:
on a two-candidate sequence the former keeps the smaller endpoint while
the latter returns nothing. -/
theorem padded_vs_dropping_detectors_differ :
    2 ≤ (lowCandidates dfTwoLows).length ∧
      identify_low_tides dfTwoLows ≠ script_identify_low_tides dfTwoLows := by
  decide

theorem length_shiftDown (xs : List ℚ) : (shiftDown xs).length = xs.length := by
  simp [shiftDown]

theorem length_shiftUp (xs : List ℚ) (h : xs ≠ []) :
    (shiftUp xs).length = xs.length := by
  have hpos : 0 < xs.length := List.length_pos.mpr h
  simp [shiftUp]
  omega

theorem length_seriesMask (xs : List ℚ) (h : xs ≠ []) :
    (seriesMask xs).length = xs.length := by
  simp [seriesMask, length_shiftDown, length_shiftUp xs h]


theorem shiftDown_getElem_succ (xs : List ℚ) (i : Nat) (h : i + 1 < xs.length) :
    (shiftDown xs)[i + 1]? = xs[i]?.map some := by
  have hi : xs[i]? = some xs[i] := List.getElem?_eq_getElem (by omega)
  simp [shiftDown, List.getElem?_take, h, hi]

theorem shiftUp_getElem (xs : List ℚ) (i : Nat) (h : i + 1 < xs.length) :
    (shiftUp xs)[i]? = xs[i + 1]?.map some := by
  have hlen : i < ((xs.map some).drop 1).length := by simp; omega
  rw [shiftUp, List.getElem?_append_left hlen, List.getElem?_drop]
  have e : 1 + i = i + 1 := by omega
  rw [e]
  simp

theorem seriesMask_getElem (pv : List ℚ) (k : Nat) (h : k + 2 < pv.length) :
    (seriesMask pv)[k + 1]? =
      some (decide (pv[k + 1] < pv[k]) && decide (pv[k + 1] < pv[k + 2])) := by
  have hp : pv[k + 1]? = some pv[k + 1] := List.getElem?_eq_getElem (by omega)
  have hk : pv[k]? = some pv[k] := List.getElem?_eq_getElem (by omega)
  have hk2 : pv[k + 2]? = some pv[k + 2] := List.getElem?_eq_getElem (by omega)
  have hd : (shiftDown pv)[k + 1]? = pv[k]?.map some :=
    shiftDown_getElem_succ pv k (by omega)
  have hu : (shiftUp pv)[k + 1]? = pv[k + 2]?.map some := by
    have := shiftUp_getElem pv (k + 1) (by omega)
    simpa [show k + 1 + 1 = k + 2 from rfl] using this
  rw [hk] at hd
  rw [hk2] at hu
  simp [seriesMask, List.getElem?_zipWith, hp, hd, hu, ltO]

theorem slicedMask_getD (pv : List ℚ) (i : Nat) (h : i + 2 < pv.length) :
    (((seriesMask pv).drop 1).dropLast).getD i false =
      (decide (pv[i + 1] < pv[i]) && decide (pv[i + 1] < pv[i + 2])) := by
  have hne : pv ≠ [] := by
    intro hc
    rw [hc] at h
    simp at h
  have hS : (seriesMask pv).length = pv.length := length_seriesMask pv hne
  have hm : (seriesMask pv)[1 + i]? =
      some (decide (pv[i + 1] < pv[i]) && decide (pv[i + 1] < pv[i + 2])) := by
    have e : 1 + i = i + 1 := by omega
    rw [e]
    exact seriesMask_getElem pv i h
  rw [List.getD_eq_getElem?_getD, List.getElem?_dropLast]
  have hcond : i < ((seriesMask pv).drop 1).length - 1 := by
    rw [List.length_drop, hS]
    omega
  rw [if_pos hcond, List.getElem?_drop, hm]
  rfl

theorem boolSelect_eq_filterMap {α : Type} [Inhabited α] (xs : List α)
    (mask : List Bool) (h : mask.length = xs.length) :
    boolSelect xs mask =
      (List.range xs.length).filterMap fun i =>
        bif mask.getD i false then some (xs.getD i default) else none := by
  induction xs generalizing mask with
  | nil => simp [boolSelect]
  | cons x xs ih =>
    cases mask with
    | nil => simp at h
    | cons b mask =>
      have h' : mask.length = xs.length := by simpa using h
      have tail := ih mask h'
      cases b <;>
        simp [boolSelect, List.range_succ_eq_map, List.filterMap_cons,
          List.filterMap_map, Function.comp_def, boolSelect] at tail ⊢ <;>
        exact tail

theorem length_paddedOf (c : List Obs) : (paddedOf c).length = c.length + 2 := by
  simp [paddedOf]

theorem getD_eq_getElem_obs (l : List Obs) (j : Nat) (h : j < l.length) :
    l.getD j default = l[j] := by
  rw [List.getD_eq_getElem?_getD, List.getElem?_eq_getElem h]
  rfl

theorem boolSelect_padded_eq_spec (c : List Obs) (h : 2 ≤ c.length) :
    boolSelect c
        (((seriesMask ((paddedOf c).map (fun r => r.v))).drop 1).dropLast) =
      specLowTides c := by
  have hplen : (paddedOf c).length = c.length + 2 := length_paddedOf c
  have hne : (paddedOf c).map (fun r => r.v) ≠ [] := by
    intro hc
    have : ((paddedOf c).map (fun r => r.v)).length = 0 := by rw [hc]; rfl
    rw [List.length_map, hplen] at this
    omega
  have hmask :
      (((seriesMask ((paddedOf c).map (fun r => r.v))).drop 1).dropLast).length
        = c.length := by
    simp [length_seriesMask _ hne, hplen]
  rw [boolSelect_eq_filterMap c _ hmask, specLowTides]
  apply List.filterMap_congr
  intro i hi
  have hi' : i < c.length := List.mem_range.mp hi
  have hb0 : i < (paddedOf c).length := by omega
  have hb1 : i + 1 < (paddedOf c).length := by omega
  have hb2 : i + 2 < (paddedOf c).length := by omega
  rw [slicedMask_getD ((paddedOf c).map (fun r => r.v)) i
    (by rw [List.length_map, hplen]; omega)]
  rw [getD_eq_getElem_obs (paddedOf c) (i + 1) hb1,
    getD_eq_getElem_obs (paddedOf c) i hb0,
    getD_eq_getElem_obs (paddedOf c) (i + 2) hb2]
  simp [Bool.cond_eq_if]

/-- C1: on any series with at least two low-tide candidates, the Extrema
Detector returns exactly the candidates that are strictly below both of
their immediate neighbours in the padded candidate sequence (second
element prepended, second-to-last appended); ties are never returned. -/
theorem identify_low_tides_padded_rule (df : List Obs)
    (h : 2 ≤ (lowCandidates df).length) :
    identify_low_tides df = specLowTides (lowCandidates df) := by
  have hn : ¬ (lowCandidates df).length ≤ 1 := by omega
  simp only [identify_low_tides, if_neg hn]
  exact boolSelect_padded_eq_spec (lowCandidates df) h

theorem identify_low_tides_padded_rule_spot :
    2 ≤ (lowCandidates dfTwoLows).length ∧
      identify_low_tides dfTwoLows = specLowTides (lowCandidates dfTwoLows) :=
  ⟨by decide, identify_low_tides_padded_rule dfTwoLows (by decide)⟩

/-- C4: the Threshold Crossing Counter's hour window is half-open while
the year-by-month Calendar Aggregator's is closed; a row at exactly
`DAY_END_HOUR` is kept by the aggregator's filter and dropped by the
counter's. -/
theorem daytime_window_asymmetry (df : List Obs) (r : Obs) :
    (r ∈ counterHourFilter df ↔
      r ∈ df ∧ DAY_START_HOUR ≤ r.t.hour ∧ r.t.hour < DAY_END_HOUR) ∧
    (r ∈ aggHourFilter df ↔
      r ∈ df ∧ DAY_START_HOUR ≤ r.t.hour ∧ r.t.hour ≤ DAY_END_HOUR) ∧
    (r.t.hour = DAY_END_HOUR → r ∈ df →
      r ∈ aggHourFilter df ∧ r ∉ counterHourFilter df) := by
  refine ⟨?_, ?_, ?_⟩
  · simp [counterHourFilter, List.mem_filter]
  · simp [aggHourFilter, List.mem_filter]
  · intro he hdf
    simp [counterHourFilter, aggHourFilter, List.mem_filter, he, hdf,
      DAY_START_HOUR, DAY_END_HOUR]

theorem daytime_window_asymmetry_spot :
    obsAt16 ∈ aggHourFilter [obsAt16] ∧ obsAt16 ∉ counterHourFilter [obsAt16] :=
  (daytime_window_asymmetry [obsAt16] obsAt16).2.2 (by decide) (by decide)

/-- C8 counterexample: the attached month name comes from the ambient
LC_TIME locale table, so the very same input yields a non-English name
under a German locale; the claim's locale independence fails. -/
theorem month_name_not_locale_independent :
    (analyze_monthly_average deLocaleMonth dfJan).map (fun r => r.month_name)
        = ["Januar"] ∧
      (analyze_monthly_average cLocaleMonth dfJan).map (fun r => r.month_name)
        = ["January"] ∧
      (analyze_monthly_average deLocaleMonth dfJan).map (fun r => r.month_name) ≠
        (analyze_monthly_average cLocaleMonth dfJan).map (fun r => r.month_name) := by
  decide

/-- C8 (amended): every attached month name is produced by applying the
ambient locale's month table to the row's own month number — generated
from the month number alone, never parsed from any input string; under
the C locale this is the English full name. -/
theorem month_name_from_month_number (loc : Nat → String) (df : List Obs)
    (row : MonthRow) (hrow : row ∈ analyze_monthly_average loc df) :
    row.month_name = monthNameOf loc row.month := by
  simp only [analyze_monthly_average, List.mem_map] at hrow
  obtain ⟨m, _, rfl⟩ := hrow
  rfl

theorem month_name_from_month_number_spot :
    ({ month := 1, v := 1, month_name := "January" } : MonthRow).month_name
      = monthNameOf cLocaleMonth 1 :=
  month_name_from_month_number cLocaleMonth dfJan _ (by
    norm_num [analyze_monthly_average, dfJan, groupKeys, mean, monthNameOf,
      strftimeFullMonth, cLocaleMonth])

theorem TIDEPOOL_TIDE_eq : TIDEPOOL_TIDE = 1 / 10 := by
  norm_num [TIDEPOOL_TIDE]

theorem lookup_keys_map_of_not_mem {κ β : Type} [DecidableEq κ] (f : κ → β)
    (ks : List κ) (m : κ) (hm : m ∉ ks) :
    (ks.map (fun k => (k, f k))).lookup m = none := by
  induction ks with
  | nil => rfl
  | cons k ks ih =>
    have hmk : ¬(m = k) := fun hc => hm (hc ▸ List.mem_cons_self k ks)
    have hmem : m ∉ ks := fun hc => hm (List.mem_cons_of_mem k hc)
    have hbeq : (m == k) = false := by simp [beq_iff_eq, hmk]
    simp [List.lookup, hbeq, ih hmem]

theorem lookup_keys_map_of_mem {κ β : Type} [DecidableEq κ] (f : κ → β)
    (ks : List κ) (m : κ) (hm : m ∈ ks) :
    (ks.map (fun k => (k, f k))).lookup m = some (f m) := by
  induction ks with
  | nil => simp at hm
  | cons k ks ih =>
    by_cases hmk : m = k
    · subst hmk
      simp [List.lookup]
    · have hmem : m ∈ ks := by
        rcases List.mem_cons.mp hm with h | h
        · exact absurd h hmk
        · exact h
      have hbeq : (m == k) = false := by simp [beq_iff_eq, hmk]
      rw [List.map_cons, List.lookup_cons, hbeq]
      exact ih hmem

/-- C2: the Threshold Crossing Counter's table has exactly the twelve
months 1..12 in month order, and a month with no qualifying observation
(below threshold, inside the half-open daytime window) in any year gets
average 0 rather than being omitted. -/
theorem counter_table_always_twelve_months (loc : Nat → String) (df : List Obs) :
    (calculate_monthly_avg_count_below_tidepool_tide_daytime loc df).map
        (fun row => row.month) = List.range' 1 12 ∧
      ∀ row ∈ calculate_monthly_avg_count_below_tidepool_tide_daytime loc df,
        (∀ r ∈ qualRows df, r.t.month ≠ row.month) →
          row.average_count_below_tidepool_tide_daytime = 0 := by
  constructor
  · simp [calculate_monthly_avg_count_below_tidepool_tide_daytime,
      List.map_map, Function.comp_def]
  · intro row hrow hno
    simp only [calculate_monthly_avg_count_below_tidepool_tide_daytime,
      List.mem_map] at hrow
    obtain ⟨m, _, rfl⟩ := hrow
    have hnk : m ∉ groupKeys ((ymCounts (qualRows df)).map (fun e => e.1.2)) := by
      intro hmem
      rw [groupKeys, List.mem_dedup] at hmem
      obtain ⟨e, he, hem⟩ := List.mem_map.mp hmem
      simp only [ymCounts, List.mem_map] at he
      obtain ⟨k, hk, rfl⟩ := he
      rw [groupKeys, List.mem_dedup] at hk
      obtain ⟨r, hr, rfl⟩ := List.mem_map.mp hk
      exact hno r hr (by simpa [ymKey] using hem)
    have hlk : (monthMeanCounts (ymCounts (qualRows df))).lookup m = none := by
      rw [monthMeanCounts]
      exact lookup_keys_map_of_not_mem _ _ _ hnk
    simp [hlk]

theorem counter_table_always_twelve_months_spot :
    qualRows dfTwoLows = [] ∧
      ({ month := 1, average_count_below_tidepool_tide_daytime := 0,
          month_name := "January" } : CountRow) ∈
        calculate_monthly_avg_count_below_tidepool_tide_daytime cLocaleMonth
          dfTwoLows ∧
      ({ month := 1, average_count_below_tidepool_tide_daytime := 0,
          month_name := "January" } : CountRow).average_count_below_tidepool_tide_daytime
        = 0 :=
  ⟨by decide, by decide,
    (counter_table_always_twelve_months cLocaleMonth dfTwoLows).2 _
      (by decide) (by decide)⟩

/-- C9: `cli.py` and `__init__.py` request `DEFAULT_START_YEAR` and
`DEFAULT_END_YEAR` from `config`, which defines neither, so importing the
package or its cli module always fails at the `from .config import`
statement and no packaged entry point is reachable. -/
theorem package_import_always_fails :
    ("DEFAULT_START_YEAR" ∈ cliConfigImports ∧
      "DEFAULT_START_YEAR" ∈ initConfigImports ∧
      "DEFAULT_START_YEAR" ∉ configModuleNames ∧
      "DEFAULT_END_YEAR" ∉ configModuleNames) ∧
    importCliOk = false ∧ importPackageOk = false := by
  decide

/-- C7 counterexample: the legacy script's `analyze_monthly_average`
assigns the derived `month` column onto the caller's own frame — the
input observably gains a column. -/
theorem script_analyze_mutates_input :
    (script_analyze_monthly_average_state cLocaleMonth dfFrameJan).1
        ≠ dfFrameJan ∧
      (script_calculate_count_below_state cLocaleMonth dfFrameJan).1
        ≠ dfFrameJan := by
  decide

/-- C7 (amended): the packaged `analysis.py` operations copy before
assigning derived columns, so the caller's frame comes back exactly as it
went in, and the result is a separate table; the legacy script's
`analyze_monthly_average` and threshold counter instead mutate the input
(see the counterexample). -/
theorem analysis_operations_preserve_input (loc : Nat → String) (df : DFrame) :
    (analyze_monthly_average_state loc df).1 = df ∧
      (calculate_count_below_state loc df).1 = df :=
  ⟨rfl, rfl⟩

theorem rotatedName_ne (p : FPath) (ts : String) : rotatedName p ts ≠ p := by
  intro hc
  have hstem : (rotatedName p ts).stem = p.stem := by rw [hc]
  simp only [rotatedName] at hstem
  have hlen := congrArg String.length hstem
  have h5 : (".bak_" : String).length = 5 := rfl
  simp [String.length_append, h5] at hlen
  omega

theorem fsGet_fsWrite_self {α : Type} (fs : FS α) (p : FPath) (t : α) :
    fsGet (fsWrite fs p t) p = some t := by
  simp [fsWrite, fsGet]

theorem fsGet_filter_ne {α : Type} (fs : FS α) (p q : FPath) (h : q ≠ p) :
    fsGet (fs.filter (fun e => decide (e.1 ≠ p))) q = fsGet fs q := by
  induction fs with
  | nil => rfl
  | cons e fs ih =>
    obtain ⟨k, v⟩ := e
    rw [List.filter_cons]
    by_cases hk : k = p
    · subst hk
      have hq : ¬(k = q) := fun hc => h hc.symm
      rw [if_neg (by simp), ih]
      simp only [fsGet]
      rw [if_neg hq]
    · rw [if_pos (by simp [hk])]
      simp only [fsGet]
      by_cases hkq : k = q
      · rw [if_pos hkq, if_pos hkq]
      · rw [if_neg hkq, if_neg hkq, ih]

theorem fsGet_fsWrite_ne {α : Type} (fs : FS α) (p q : FPath) (t : α)
    (h : q ≠ p) :
    fsGet (fsWrite fs p t) q = fsGet fs q := by
  have hq : ¬(p = q) := fun hc => h hc.symm
  simp only [fsWrite, fsGet, hq, if_false]
  exact fsGet_filter_ne fs p q h

/-- C3 (amended, packaged `io.py` exporter): when a file already exists at
the target, the export renames it to the timestamped backup path, writes
the new table at the target, and touches no other path. -/
theorem export_to_csv_rotates {α : Type} (fs : FS α) (tbl old : α)
    (p : FPath) (ts : String) (hold : fsGet fs p = some old) :
    fsGet (export_to_csv fs tbl p ts) p = some tbl ∧
      fsGet (export_to_csv fs tbl p ts) (rotatedName p ts) = some old ∧
      ∀ q : FPath, q ≠ p → q ≠ rotatedName p ts →
        fsGet (export_to_csv fs tbl p ts) q = fsGet fs q := by
  have hrne : rotatedName p ts ≠ p := rotatedName_ne p ts
  have hexp : export_to_csv fs tbl p ts =
      fsWrite (fsWrite (fs.filter (fun e => decide (e.1 ≠ p)))
        (rotatedName p ts) old) p tbl := by
    rw [export_to_csv, hold, fsRename, hold]
  refine ⟨?_, ?_, ?_⟩
  · rw [hexp]
    exact fsGet_fsWrite_self _ _ _
  · rw [hexp, fsGet_fsWrite_ne _ _ _ _ hrne]
    exact fsGet_fsWrite_self _ _ _
  · intro q hqp hqr
    rw [hexp, fsGet_fsWrite_ne _ _ _ _ hqp, fsGet_fsWrite_ne _ _ _ _ hqr]
    exact fsGet_filter_ne fs p q hqp

theorem export_to_csv_rotates_spot :
    fsGet [(outCsv, (0 : Nat))] outCsv = some 0 ∧
      fsGet (export_to_csv [(outCsv, 0)] 1 outCsv backupStamp) outCsv
        = some 1 ∧
      fsGet (export_to_csv [(outCsv, 0)] 1 outCsv backupStamp)
        (rotatedName outCsv backupStamp) = some 0 :=
  ⟨by decide,
    (export_to_csv_rotates [(outCsv, 0)] 1 0 outCsv backupStamp (by decide)).1,
    (export_to_csv_rotates [(outCsv, 0)] 1 0 outCsv backupStamp (by decide)).2.1⟩

/-- C3 counterexample: the legacy script's `export_to_csv` overwrites the
target with no backup — the prior table `0` is nowhere in the resulting
filesystem. -/
theorem script_export_loses_data :
    script_export_to_csv [(outCsv, (0 : Nat))] 1 outCsv = [(outCsv, 1)] ∧
      fsGet (script_export_to_csv [(outCsv, (0 : Nat))] 1 outCsv) outCsv
        ≠ some 0 := by
  decide

theorem filter_dedup {α : Type} [DecidableEq α] (p : α → Bool) (l : List α) :
    l.dedup.filter p = (l.filter p).dedup := by
  induction l with
  | nil => rfl
  | cons a l ih =>
    by_cases ha : a ∈ l
    · rw [List.dedup_cons_of_mem ha, List.filter_cons]
      cases hpa : p a
      · simp [hpa, ih]
      · have hmem : a ∈ l.filter p := List.mem_filter.mpr ⟨ha, hpa⟩
        simp [hpa, List.dedup_cons_of_mem hmem, ih]
    · rw [List.dedup_cons_of_not_mem ha, List.filter_cons, List.filter_cons]
      cases hpa : p a
      · simp [hpa, ih]
      · have hnf : a ∉ l.filter p := fun hc => ha (List.mem_filter.mp hc).1
        simp [hpa, List.dedup_cons_of_not_mem hnf, ih]

theorem dedup_map_of_injective {α β : Type} [DecidableEq α] [DecidableEq β]
    {f : α → β} (hf : Function.Injective f) (l : List α) :
    (l.map f).dedup = l.dedup.map f := by
  induction l with
  | nil => rfl
  | cons a l ih =>
    by_cases ha : a ∈ l
    · rw [List.map_cons, List.dedup_cons_of_mem (List.mem_map_of_mem f ha),
        List.dedup_cons_of_mem ha, ih]
    · have hfa : f a ∉ l.map f := by
        intro hc
        obtain ⟨b, hb, hfb⟩ := List.mem_map.mp hc
        exact ha (hf hfb ▸ hb)
      rw [List.map_cons, List.dedup_cons_of_not_mem hfa,
        List.dedup_cons_of_not_mem ha, List.map_cons, ih]

theorem sum_filter_length_cons_not_mem {α κ : Type} [DecidableEq κ]
    (key : α → κ) (x : α) (xs : List α) (ks : List κ) (hx : key x ∉ ks) :
    (ks.map (fun k => ((x :: xs).filter (fun a => decide (key a = k))).length)).sum
      = (ks.map (fun k => (xs.filter (fun a => decide (key a = k))).length)).sum := by
  refine congrArg List.sum (List.map_congr_left ?_)
  intro k hk
  have hne : ¬(key x = k) := fun hc => hx (hc ▸ hk)
  simp [List.filter_cons, hne]

theorem sum_filter_length_cons_mem {α κ : Type} [DecidableEq κ]
    (key : α → κ) (x : α) (xs : List α) (ks : List κ) (hnd : ks.Nodup)
    (hx : key x ∈ ks) :
    (ks.map (fun k => ((x :: xs).filter (fun a => decide (key a = k))).length)).sum
      = (ks.map (fun k => (xs.filter (fun a => decide (key a = k))).length)).sum
        + 1 := by
  induction ks with
  | nil => simp at hx
  | cons k ks ih =>
    rcases List.mem_cons.mp hx with hk | hk
    · have hknd : k ∉ ks := (List.nodup_cons.mp hnd).1
      have hxks : key x ∉ ks := hk ▸ hknd
      rw [List.map_cons, List.map_cons, List.sum_cons, List.sum_cons,
        sum_filter_length_cons_not_mem key x xs ks hxks]
      have hhead : ((x :: xs).filter (fun a => decide (key a = k))).length
          = (xs.filter (fun a => decide (key a = k))).length + 1 := by
        simp [List.filter_cons, hk]
      omega
    · have hnd2 : ks.Nodup := (List.nodup_cons.mp hnd).2
      have hxk : ¬(key x = k) := fun hc =>
        (List.nodup_cons.mp hnd).1 (hc ▸ hk)
      rw [List.map_cons, List.map_cons, List.sum_cons, List.sum_cons,
        ih hnd2 hk]
      have hhead : ((x :: xs).filter (fun a => decide (key a = k))).length
          = (xs.filter (fun a => decide (key a = k))).length := by
        simp [List.filter_cons, hxk]
      omega

theorem sum_filter_length_partition {α κ : Type} [DecidableEq κ]
    (key : α → κ) (xs : List α) (ks : List κ) (hnd : ks.Nodup)
    (hcov : ∀ a ∈ xs, key a ∈ ks) :
    (ks.map (fun k => (xs.filter (fun a => decide (key a = k))).length)).sum
      = xs.length := by
  induction xs with
  | nil => simp
  | cons x xs ih =>
    rw [sum_filter_length_cons_mem key x xs ks hnd (hcov x (by simp)),
      ih (fun a ha => hcov a (by simp [ha]))]
    simp

theorem sum_natCast_map {α : Type} (f : α → Nat) (l : List α) :
    (l.map (fun a => ((f a : ℕ) : ℚ))).sum = (((l.map f).sum : ℕ) : ℚ) := by
  induction l with
  | nil => simp
  | cons a l ih => simp [ih]

theorem month_counts_mean (q : List Obs) (m : Nat) :
    mean (((ymCounts q).filter (fun e => decide (e.1.2 = m))).map
        (fun e => (e.2 : ℚ))) =
      ((q.filter (fun r => decide (r.t.month = m))).length : ℚ) /
        ((((q.filter (fun r => decide (r.t.month = m))).map
          (fun r => r.t.year)).dedup).length : ℚ) := by
  have hinj : Function.Injective (fun y => ((y, m) : Nat × Nat)) := by
    intro a b h
    simpa using congrArg Prod.fst h
  have hA : (ymCounts q).filter (fun e => decide (e.1.2 = m)) =
      ((((q.filter (fun r => decide (r.t.month = m))).map
          (fun r => r.t.year)).dedup).map (fun y => (y, m))).map
        (fun k => (k, (q.filter (fun r => decide (ymKey r = k))).length)) := by
    rw [ymCounts, List.filter_map]
    congr 1
    show (groupKeys (q.map ymKey)).filter (fun k => decide (k.2 = m)) = _
    rw [groupKeys, filter_dedup, List.filter_map]
    show ((q.filter (fun r => decide (r.t.month = m))).map ymKey).dedup = _
    have hmapF : (q.filter (fun r => decide (r.t.month = m))).map ymKey =
        ((q.filter (fun r => decide (r.t.month = m))).map
          (fun r => r.t.year)).map (fun y => (y, m)) := by
      rw [List.map_map]
      apply List.map_congr_left
      intro r hr
      have hmr : r.t.month = m := of_decide_eq_true (List.mem_filter.mp hr).2
      simp [ymKey, Function.comp_def, hmr]
    rw [hmapF, dedup_map_of_injective hinj]
  rw [hA, List.map_map, List.map_map]
  show mean ((((q.filter (fun r => decide (r.t.month = m))).map
      (fun r => r.t.year)).dedup).map
        (fun y => ((q.filter (fun r => decide (ymKey r = (y, m)))).length : ℚ)))
    = _
  have hC : (fun y => ((q.filter (fun r => decide (ymKey r = (y, m)))).length : ℚ))
      = (fun y => (((q.filter (fun r => decide (r.t.month = m))).filter
        (fun r => decide (r.t.year = y))).length : ℚ)) := by
    funext y
    have hlist : q.filter (fun r => decide (ymKey r = (y, m))) =
        (q.filter (fun r => decide (r.t.month = m))).filter
          (fun r => decide (r.t.year = y)) := by
      rw [List.filter_filter]
      apply List.filter_congr
      intro r _
      simp [ymKey, Prod.ext_iff]
    rw [hlist]
  rw [hC, mean, sum_natCast_map
    (fun y => ((q.filter (fun r => decide (r.t.month = m))).filter
      (fun r => decide (r.t.year = y))).length)]
  rw [sum_filter_length_partition (fun r => r.t.year)
    (q.filter (fun r => decide (r.t.month = m)))
    (((q.filter (fun r => decide (r.t.month = m))).map (fun r => r.t.year)).dedup)
    (List.nodup_dedup _)
    (fun a ha => List.mem_dedup.mpr (List.mem_map_of_mem _ ha))]
  rw [List.length_map]

/-- C10: each month's average in the Threshold Crossing Counter divides
the month's total qualifying count by the number of distinct years that
have at least one qualifying observation in that month — a year present
in the data with no qualifying observation in the month contributes
nothing to the denominator. -/
theorem counter_average_ignores_empty_years (loc : Nat → String)
    (df : List Obs) (row : CountRow)
    (hrow : row ∈ calculate_monthly_avg_count_below_tidepool_tide_daytime loc df) :
    row.average_count_below_tidepool_tide_daytime =
      (qualCountInMonth df row.month : ℚ) / (qualYearsInMonth df row.month : ℚ) := by
  simp only [calculate_monthly_avg_count_below_tidepool_tide_daytime,
    List.mem_map] at hrow
  obtain ⟨m, _, rfl⟩ := hrow
  show ((monthMeanCounts (ymCounts (qualRows df))).lookup m).getD 0 =
    (qualCountInMonth df m : ℚ) / (qualYearsInMonth df m : ℚ)
  by_cases hm : m ∈ groupKeys ((ymCounts (qualRows df)).map (fun e => e.1.2))
  · rw [monthMeanCounts, lookup_keys_map_of_mem _ _ _ hm, Option.getD_some]
    exact month_counts_mean (qualRows df) m
  · rw [monthMeanCounts, lookup_keys_map_of_not_mem _ _ _ hm, Option.getD_none]
    have hempty : (qualRows df).filter (fun r => decide (r.t.month = m)) = [] := by
      rcases hq : (qualRows df).filter (fun r => decide (r.t.month = m)) with
        _ | ⟨r, rest⟩
      · exact hq
      · exfalso
        have hr : r ∈ (qualRows df).filter (fun r => decide (r.t.month = m)) := by
          rw [hq]
          exact List.mem_cons_self r rest
        have hmem := List.mem_filter.mp hr
        have hmonth : r.t.month = m := of_decide_eq_true hmem.2
        apply hm
        rw [groupKeys, List.mem_dedup]
        refine List.mem_map.mpr
          ⟨(ymKey r,
            ((qualRows df).filter (fun x => decide (ymKey x = ymKey r))).length),
            ?_, by simp [ymKey, hmonth]⟩
        rw [ymCounts]
        exact List.mem_map_of_mem _
          (by rw [groupKeys, List.mem_dedup]
              exact List.mem_map_of_mem _ hmem.1)
    simp [qualCountInMonth, qualYearsInMonth, hempty]

theorem counter_average_ignores_empty_years_spot :
    ({ month := 1, average_count_below_tidepool_tide_daytime := 3,
        month_name := "January" } : CountRow).average_count_below_tidepool_tide_daytime
      = (qualCountInMonth dfC10 1 : ℚ) / (qualYearsInMonth dfC10 1 : ℚ) :=
  counter_average_ignores_empty_years cLocaleMonth dfC10 _ (by
    refine List.mem_map.mpr ⟨1, by decide, ?_⟩
    have hget : ((monthMeanCounts (ymCounts (qualRows dfC10))).lookup 1).getD 0
        = 3 := by
      rw [monthMeanCounts, lookup_keys_map_of_mem _ _ _ (by decide),
        Option.getD_some, month_counts_mean]
      have e1 : ((qualRows dfC10).filter (fun r => decide (r.t.month = 1))).length
          = 3 := by decide
      have e2 : ((((qualRows dfC10).filter (fun r => decide (r.t.month = 1))).map
          (fun r => r.t.year)).dedup).length = 1 := by decide
      rw [e1, e2]
      norm_num
    simp [hget, monthNameOf, strftimeFullMonth, cLocaleMonth])
